import Mathlib

/-
Shallow embedding of svdistil (src/svdistil/svannotate.py), the structural
variant annotation tool: an interval index over padded gene regions is built
from a tab separated annotation table, and each variant row is annotated with
the genes, grouped by tier, that overlap its breakend span.

The program stores intervals through the intervaltree Python package, whose
semantics this file embeds explicitly:
  an Interval value covers the half open range begin <= x < end;
  inserting a null interval (begin >= end) raises ValueError;
  the slice query tree[qb:qe] returns the set of intervals iv with
  iv.begin < qe and iv.end > qb, and returns the empty set when qb >= qe.
Coordinates are Python integers, embedded as Int.  Fallible steps (int()
conversions that may raise ValueError, interval insertions that may raise)
are embedded with Except.  Output printed to stdout is collected as a list
of rows, each row a list of cells.
-/

/-- Model of Python int(...) applied to a text field: an optional sign followed
by one or more ASCII digits parses to the corresponding integer; any other
string raises ValueError, embedded as none. -/
def parseInt (s : String) : Option Int :=
  match s.data with
  | [] => none
  | c :: cs =>
    let p : Bool × List Char :=
      if c = '-' then (true, cs) else if c = '+' then (false, cs) else (false, c :: cs)
    if p.2.isEmpty then none
    else if p.2.all Char.isDigit then
      let n : Nat := p.2.foldl (fun acc d => 10 * acc + (d.toNat - 48)) 0
      some (if p.1 then -(n : Int) else (n : Int))
    else none

/-- An Interval value of the intervaltree package: begin and end coordinates
and the stored payload, here always the (gene, tier) pair used by svannotate.
The package treats the interval as covering begin <= x < end. -/
structure Ival where
  ibegin : Int
  iend : Int
  data : String × Int
deriving DecidableEq, Repr

/-- IntervalTree insertion, tree[start:end] = val: a null interval
(begin >= end) raises ValueError; otherwise the interval is stored.  The tree
is embedded as the list of its intervals in insertion order. -/
def treeAdd (tree : List Ival) (s e : Int) (v : String × Int) :
    Except String (List Ival) :=
  if e ≤ s then Except.error "IntervalTree: Null Interval objects not allowed"
  else Except.ok (tree ++ [⟨s, e, v⟩])

/-- IntervalTree slice query tree[qb:qe] (IntervalTree.overlap): an empty or
inverted slice (qb >= qe) returns the empty set; otherwise every stored
interval iv with iv.begin < qe and iv.end > qb is returned. -/
def treeOverlap (tree : List Ival) (qb qe : Int) : List Ival :=
  if qe ≤ qb then []
  else tree.filter (fun iv => decide (iv.ibegin < qe ∧ qb < iv.iend))

/-- The AnnIntervals.chroms dictionary: chromosome name to IntervalTree, as an
association list in key insertion order. -/
abbrev AnnIntervals := List (String × List Ival)

/-- Dictionary access self.chroms[chrom], none when the key is absent. -/
def chromsFind (a : AnnIntervals) (c : String) : Option (List Ival) :=
  (a.find? (fun p => decide (p.1 = c))).map (fun p => p.2)

/-- AnnIntervals.add: create the IntervalTree of chrom on first use, then run
tree[start:end] = val, which raises on a null interval. -/
def annAdd (a : AnnIntervals) (chrom : String) (s e : Int) (v : String × Int) :
    Except String AnnIntervals :=
  match chromsFind a chrom with
  | none =>
    match treeAdd [] s e v with
    | Except.error m => Except.error m
    | Except.ok t => Except.ok (a ++ [(chrom, t)])
  | some t =>
    match treeAdd t s e v with
    | Except.error m => Except.error m
    | Except.ok t2 => Except.ok (a.map (fun p => if p.1 = chrom then (chrom, t2) else p))

/-- AnnIntervals.lookup: the slice query tree[start : end + 1] on the tree of
chrom, and the empty set when the chromosome has no tree. -/
def lookup (a : AnnIntervals) (chrom : String) (s e : Int) : List Ival :=
  match chromsFind a chrom with
  | some t => treeOverlap t s (e + 1)
  | none => []

/-- AnnIntervals.lookup viewed as a method call on the object state: the body
only reads self.chroms (a dict membership test and an item access), so the
post call state is returned alongside the result. -/
def lookupSt (a : AnnIntervals) (chrom : String) (s e : Int) :
    List Ival × AnnIntervals :=
  match chromsFind a chrom with
  | some t => (treeOverlap t s (e + 1), a)
  | none => ([], a)

/-- A sequence of lookup method calls threaded through the object state. -/
def runLookups (a : AnnIntervals) :
    List (String × Int × Int) → List (List Ival) × AnnIntervals
  | [] => ([], a)
  | q :: qs =>
    let r := lookupSt a q.1 q.2.1 q.2.2
    let rest := runLookups r.2 qs
    (r.1 :: rest.1, rest.2)

/-- One row of the annotations TSV, as the strings csv.DictReader yields for
the required columns chrom, start, end, gene, tier.  The end column is named
stop here because end is a Lean keyword. -/
structure AnnRow where
  chrom : String
  start : String
  stop : String
  gene : String
  tier : String
deriving DecidableEq, Repr

/-- The loop of read_annotations over the remaining rows, carrying the tier
set (embedded as the list of distinct tiers in first insertion order) and the
AnnIntervals under construction.  Each row parses tier, start and end with
int() (which may raise), pads the interval on both sides and inserts it. -/
def readAnnotationsAux (pad : Int) (tiers : List Int) (intervals : AnnIntervals) :
    List AnnRow → Except String (List Int × AnnIntervals)
  | [] => Except.ok (tiers, intervals)
  | row :: rest =>
    match parseInt row.tier with
    | none => Except.error ("invalid literal for int with base 10: " ++ row.tier)
    | some this_tier =>
      let tiers2 := if this_tier ∈ tiers then tiers else tiers ++ [this_tier]
      match parseInt row.start with
      | none => Except.error ("invalid literal for int with base 10: " ++ row.start)
      | some s =>
        match parseInt row.stop with
        | none => Except.error ("invalid literal for int with base 10: " ++ row.stop)
        | some e =>
          match annAdd intervals row.chrom (s - pad) (e + pad) (row.gene, this_tier) with
          | Except.error m => Except.error m
          | Except.ok intervals2 => readAnnotationsAux pad tiers2 intervals2 rest

/-- read_annotations: build the tier set and the per chromosome interval index
from the annotation rows, with this_start = start - pad, this_end = end + pad. -/
def read_annotations (pad : Int) (rows : List AnnRow) :
    Except String (List Int × AnnIntervals) :=
  readAnnotationsAux pad [] [] rows

/-- One row of the variants TSV as csv.DictReader yields it: the field name to
value mapping, listed in source column order. -/
abbrev VarRow := List (String × String)

/-- Dictionary access row[f] on a DictReader row.  The rows handled in this
development always carry the accessed field, so the missing key case (a Python
KeyError) is mapped to the empty string rather than modelled as a failure. -/
def rowGet (row : VarRow) (f : String) : String :=
  match row.find? (fun p => decide (p.1 = f)) with
  | some p => p.2
  | none => ""

/-- One step of the hits dictionary construction in print_variant: add gene to
the set hits[tier], creating the entry when absent.  The dictionary is an
association list in key insertion order; each gene set is a duplicate free
list. -/
def hitsAdd (hits : List (Int × List String)) (tier : Int) (gene : String) :
    List (Int × List String) :=
  match hits.find? (fun p => decide (p.1 = tier)) with
  | none => hits ++ [(tier, [gene])]
  | some _ =>
    hits.map (fun p =>
      if p.1 = tier then (p.1, if gene ∈ p.2 then p.2 else p.2 ++ [gene]) else p)

/-- The hits dictionary of print_variant, grouping the intersection payloads
by tier. -/
def buildHits (intersections : List Ival) : List (Int × List String) :=
  intersections.foldl (fun hits iv => hitsAdd hits iv.data.2 iv.data.1) []

/-- Dictionary access hits[t], none when t is not a key (t not in hits). -/
def hitsGet (hits : List (Int × List String)) (t : Int) : Option (List String) :=
  (hits.find? (fun p => decide (p.1 = t))).map (fun p => p.2)

/-- Lexicographic comparison of char lists by code point: the order that
Python sorted(...) uses on strings. -/
def charListLe : List Char → List Char → Bool
  | [], _ => true
  | _ :: _, [] => false
  | a :: as, b :: bs =>
    if a.toNat < b.toNat then true
    else if b.toNat < a.toNat then false
    else charListLe as bs

/-- The string order underlying Python sorted(...) on strings. -/
def strLe (a b : String) : Prop := charListLe a.data b.data = true

instance : DecidableRel strLe := fun _ _ => inferInstanceAs (Decidable (_ = true))

/-- Python sorted(...) on a collection of strings (code point order; equal
keys are identical strings, so stability is immaterial). -/
def sortStrings (l : List String) : List String := List.insertionSort strLe l

/-- Python sorted(...) on a collection of integers, ascending. -/
def sortInts (l : List Int) : List Int := List.insertionSort (fun a b => a ≤ b) l

/-- print_variant without the I/O: the printed row as its list of cells.  The
tiers argument is the sorted tier list that annotate_variants passes. -/
def print_variant (tiers : List Int) (fieldnames : List String) (row : VarRow)
    (intersections : List Ival) : List String :=
  let hits := buildHits intersections
  let output_fields := fieldnames.map (fun f => rowGet row f)
  let output_tiers := tiers.flatMap (fun t =>
    match hitsGet hits t with
    | some gs => ["1", String.intercalate ";" (sortStrings gs)]
    | none => ["0", ""])
  output_fields ++ output_tiers

/-- The overlap queries of the per row body of annotate_variants: one lookup
over [pos1, pos2] when both breakends are on one chromosome, else one lookup
per breakend over the half_window spans, the two result sets unioned (the
union of the two sets is embedded as list append; every later use treats the
result as a set). -/
def rowIntersections (half_window : Int) (anns : AnnIntervals)
    (chr1 : String) (pos1 : Int) (chr2 : String) (pos2 : Int) : List Ival :=
  if chr1 = chr2 then lookup anns chr1 pos1 pos2
  else
    let pos1_low := max 0 (pos1 - half_window)
    let pos1_high := pos1 + (half_window - 1)
    let intersections1 := lookup anns chr1 pos1_low pos1_high
    let pos2_low := max 0 (pos2 - half_window)
    let pos2_high := pos2 + (half_window - 1)
    let intersections2 := lookup anns chr2 pos2_low pos2_high
    intersections1 ++ intersections2

/-- One iteration of the row loop of annotate_variants: read chr1 and chr2,
parse pos1 and pos2 with int() (which may raise), query, and print the row. -/
def annotateOne (half_window : Int) (sorted_tiers : List Int)
    (anns : AnnIntervals) (fieldnames : List String) (row : VarRow) :
    Except String (List String) :=
  match parseInt (rowGet row "pos1") with
  | none => Except.error ("invalid literal for int with base 10: " ++ rowGet row "pos1")
  | some pos1 =>
    match parseInt (rowGet row "pos2") with
    | none => Except.error ("invalid literal for int with base 10: " ++ rowGet row "pos2")
    | some pos2 =>
      Except.ok (print_variant sorted_tiers fieldnames row
        (rowIntersections half_window anns (rowGet row "chr1") pos1 (rowGet row "chr2") pos2))

/-- The row loop of annotate_variants: rows are processed and printed in input
order; the first int() failure aborts the loop, and the lines already printed
before it remain printed. -/
def annotateRows (half_window : Int) (sorted_tiers : List Int)
    (anns : AnnIntervals) (fieldnames : List String) :
    List VarRow → List (List String) × Option String
  | [] => ([], none)
  | row :: rest =>
    match annotateOne half_window sorted_tiers anns fieldnames row with
    | Except.error m => ([], some m)
    | Except.ok line =>
      let r := annotateRows half_window sorted_tiers anns fieldnames rest
      (line :: r.1, r.2)

/-- annotate_variants: the header line is built from the tier set in its
iteration order (CPython leaves the iteration order of a set unspecified, so
that order is the tiers parameter here; read_annotations below instantiates it
with first insertion order), while the data lines use sorted(tiers).  Returns
the printed lines together with the error of the first failing row, if any. -/
def annotate_variants (window : Int) (tiers : List Int) (anns : AnnIntervals)
    (fieldnames : List String) (rows : List VarRow) :
    List (List String) × Option String :=
  let half_window := Int.fdiv window 2
  let sorted_tiers := sortInts tiers
  let tier_headers := tiers.flatMap (fun t =>
    ["tier" ++ toString t, "tier" ++ toString t ++ " genes"])
  let output_headers := fieldnames ++ tier_headers
  let dataRows := annotateRows half_window sorted_tiers anns fieldnames rows
  (output_headers :: dataRows.1, dataRows.2)

/-- main after option parsing: read_annotations, then annotate_variants.  When
read_annotations raises, nothing has been printed.  parse_args performs no
range check on pad or window (argparse type=int only), so every integer value
of either option reaches this point unchanged. -/
def svannotate (pad window : Int) (annRows : List AnnRow)
    (fieldnames : List String) (varRows : List VarRow) :
    List (List String) × Option String :=
  match read_annotations pad annRows with
  | Except.error m => ([], some m)
  | Except.ok (tiers, anns) => annotate_variants window tiers anns fieldnames varRows

/-- Spec side formula: the set of gene names of one tier among the overlap
results, as a duplicate free list, before sorting. -/
def specTierGenes (intersections : List Ival) (t : Int) : List String :=
  ((intersections.filter (fun iv => decide (iv.data.2 = t))).map (fun iv => iv.data.1)).dedup

/-- Spec side formula for the per tier output cells: for each tier of the
given list in the given order, flag 1 with the alphabetically sorted,
semicolon joined gene list when the tier has a hit among the overlap results,
else flag 0 with the empty string. -/
def specCells (intersections : List Ival) (tiers : List Int) : List String :=
  tiers.flatMap (fun t =>
    if intersections.any (fun iv => decide (iv.data.2 = t)) then
      ["1", String.intercalate ";" (sortStrings (specTierGenes intersections t))]
    else ["0", ""])

/-! Concrete fixtures used by the closed theorems below. -/

/-- An annotation row for gene G, tier 1, on chr1 at [10, 20]. -/
def exRow1 : AnnRow := ⟨"chr1", "10", "20", "G", "1"⟩

/-- The index built from exRow1 with pad 0. -/
def exIdx1 : AnnIntervals :=
  match read_annotations 0 [exRow1] with
  | Except.ok p => p.2
  | Except.error _ => []

/-- An index with tier 1 on chr1 and tier 8 on chr2, pad 0. -/
def exIdx18 : AnnIntervals :=
  match read_annotations 0 [⟨"chr1", "10", "20", "G", "1"⟩, ⟨"chr2", "10", "20", "H", "8"⟩] with
  | Except.ok p => p.2
  | Except.error _ => []

/-- An index with two overlapping tier 1 genes on chr1, pad 0. -/
def exIdx2 : AnnIntervals :=
  match read_annotations 0 [⟨"chr1", "10", "20", "TP53", "1"⟩, ⟨"chr1", "12", "25", "BRCA1", "1"⟩] with
  | Except.ok p => p.2
  | Except.error _ => []

/-- An index with one tier 1 gene on chr1 at [120, 180], pad 0. -/
def exIdx3 : AnnIntervals :=
  match read_annotations 0 [⟨"chr1", "120", "180", "G", "1"⟩] with
  | Except.ok p => p.2
  | Except.error _ => []

/-- A same chromosome variant row spanning [12, 30] on chr1. -/
def vRow1 : VarRow :=
  [("id", "v1"), ("chr1", "chr1"), ("pos1", "12"), ("chr2", "chr1"), ("pos2", "30")]

/-- A variant row whose pos1 field is not an integer. -/
def vRowBad : VarRow :=
  [("id", "v2"), ("chr1", "chr1"), ("pos1", "oops"), ("chr2", "chr1"), ("pos2", "30")]

/-- A same chromosome variant row with pos1 = 100 and pos2 = 200. -/
def vRowF : VarRow :=
  [("id", "va"), ("chr1", "chr1"), ("pos1", "100"), ("chr2", "chr1"), ("pos2", "200")]

/-- The same breakends as vRowF in the opposite order: pos1 = 200, pos2 = 100. -/
def vRowR : VarRow :=
  [("id", "vb"), ("chr1", "chr1"), ("pos1", "200"), ("chr2", "chr1"), ("pos2", "100")]

/-- The fieldnames of the variant fixtures. -/
def exFields : List String := ["id", "chr1", "pos1", "chr2", "pos2"]

/-- A cross chromosome variant row: breakends on chr1 at 1000 and chr2 at 15. -/
def vRowX : VarRow :=
  [("id", "v3"), ("chr1", "chr1"), ("pos1", "1000"), ("chr2", "chr2"), ("pos2", "15")]

/-- An index with genes near both breakends of vRowX, pad 0. -/
def exIdxX : AnnIntervals :=
  match read_annotations 0 [⟨"chr1", "990", "1010", "G", "1"⟩, ⟨"chr2", "10", "30", "H", "2"⟩] with
  | Except.ok p => p.2
  | Except.error _ => []

/-- The relation between the hits dictionary and the prefix of the
intersection set already folded into it: absent tiers have no interval, and a
present tier maps to the nonempty, duplicate free list of exactly its genes. -/
def HitsModels (hits : List (Int × List String)) (done : List Ival) : Prop :=
  ∀ t : Int,
    (hitsGet hits t = none → ∀ iv ∈ done, iv.data.2 ≠ t) ∧
    (∀ gs, hitsGet hits t = some gs →
      gs ≠ [] ∧ gs.Nodup ∧ ∀ g, g ∈ gs ↔ ∃ iv ∈ done, iv.data.2 = t ∧ iv.data.1 = g)

/-- The output line that annotate_variants prints for a well formed row: the
original field values followed by the per tier cells for the sorted tiers. -/
def okLine (hw : Int) (st : List Int) (anns : AnnIntervals) (fn : List String)
    (r : VarRow) : List String :=
  print_variant st fn r
    (rowIntersections hw anns (rowGet r "chr1") ((parseInt (rowGet r "pos1")).getD 0)
      (rowGet r "chr2") ((parseInt (rowGet r "pos2")).getD 0))

/-! Order lemmas for the code point comparison behind Python sorted(...). -/

theorem charListLe_total : ∀ as bs, charListLe as bs = true ∨ charListLe bs as = true
  | [], _ => Or.inl rfl
  | _ :: _, [] => Or.inr rfl
  | a :: as, b :: bs => by
    rcases Nat.lt_trichotomy a.toNat b.toNat with h | h | h
    · left; simp [charListLe, h]
    · rcases charListLe_total as bs with ih | ih
      · left; simp [charListLe, h, ih]
      · right; simp [charListLe, h, ih]
    · right; simp [charListLe, h]

theorem charListLe_trans :
    ∀ as bs cs, charListLe as bs = true → charListLe bs cs = true → charListLe as cs = true
  | [], _, _ => fun _ _ => rfl
  | _ :: _, [], _ => by intro h _; simp [charListLe] at h
  | _ :: _, _ :: _, [] => by intro _ h; simp [charListLe] at h
  | a :: as, b :: bs, c :: cs => by
    intro h1 h2
    simp only [charListLe] at h1 h2 ⊢
    split_ifs at h1 h2 ⊢ <;> first
      | rfl
      | omega
      | exact charListLe_trans as bs cs h1 h2
      | simp_all

theorem charListLe_antisymm :
    ∀ as bs, charListLe as bs = true → charListLe bs as = true → as = bs
  | [], [] => fun _ _ => rfl
  | [], _ :: _ => by intro _ h; simp [charListLe] at h
  | _ :: _, [] => by intro h _; simp [charListLe] at h
  | a :: as, b :: bs => by
    intro h1 h2
    simp only [charListLe] at h1 h2
    split_ifs at h1 h2 <;> first
      | omega
      | exact congrArg₂ List.cons
          (Char.ext (UInt32.ext (show a.toNat = b.toNat by omega)))
          (charListLe_antisymm as bs h1 h2)
      | simp_all

instance : IsTotal String strLe := ⟨fun a b => charListLe_total a.data b.data⟩

instance : IsTrans String strLe := ⟨fun a b c => charListLe_trans a.data b.data c.data⟩

instance : IsAntisymm String strLe :=
  ⟨fun a b h1 h2 => by
    cases a; cases b
    exact congrArg String.mk (charListLe_antisymm _ _ h1 h2)⟩

theorem sortStrings_sorted (l : List String) : List.Sorted strLe (sortStrings l) :=
  List.sorted_insertionSort strLe l

theorem sortStrings_perm (l : List String) : (sortStrings l).Perm l :=
  List.perm_insertionSort strLe l

theorem sortStrings_congr {l1 l2 : List String} (h : l1.Perm l2) :
    sortStrings l1 = sortStrings l2 :=
  List.eq_of_perm_of_sorted
    ((sortStrings_perm l1).trans (h.trans (sortStrings_perm l2).symm))
    (sortStrings_sorted l1) (sortStrings_sorted l2)

theorem sortInts_sorted (l : List Int) : List.Sorted (fun a b : Int => a ≤ b) (sortInts l) :=
  List.sorted_insertionSort _ l

/-! Lemmas about the hits dictionary of print_variant. -/

theorem hitsGet_hitsAdd_self (h : List (Int × List String)) (tier : Int) (g : String) :
    hitsGet (hitsAdd h tier g) tier =
      some (match hitsGet h tier with
            | none => [g]
            | some gs => if g ∈ gs then gs else gs ++ [g]) := by
  cases hf : h.find? (fun p => decide (p.1 = tier)) with
  | none =>
    have hg : hitsGet h tier = none := by simp [hitsGet, hf]
    simp only [hitsAdd, hitsGet, hf, hg]
    rw [List.find?_append, hf]
    simp
  | some q =>
    have hq : q.1 = tier := by simpa using List.find?_some hf
    have hg : hitsGet h tier = some q.2 := by simp [hitsGet, hf]
    simp only [hitsAdd, hitsGet, hf, hg]
    rw [List.find?_map]
    have hpf : ((fun p => decide (p.1 = tier)) ∘
        (fun p : Int × List String =>
          if p.1 = tier then (p.1, if g ∈ p.2 then p.2 else p.2 ++ [g]) else p)) =
        (fun p : Int × List String => decide (p.1 = tier)) := by
      funext p; by_cases hp : p.1 = tier <;> simp [hp]
    rw [hpf, hf]
    simp [hq]

theorem hitsGet_hitsAdd_ne (h : List (Int × List String)) (tier t : Int) (g : String)
    (hne : t ≠ tier) : hitsGet (hitsAdd h tier g) t = hitsGet h t := by
  cases hf : h.find? (fun p => decide (p.1 = tier)) with
  | none =>
    simp only [hitsAdd, hitsGet, hf]
    rw [List.find?_append]
    have : List.find? (fun p => decide (p.1 = t)) [(tier, [g])] = none := by
      simp [Ne.symm hne]
    rw [this]
    cases h.find? (fun p => decide (p.1 = t)) <;> rfl
  | some q =>
    simp only [hitsAdd, hitsGet, hf]
    rw [List.find?_map]
    have hpf : ((fun p => decide (p.1 = t)) ∘
        (fun p : Int × List String =>
          if p.1 = tier then (p.1, if g ∈ p.2 then p.2 else p.2 ++ [g]) else p)) =
        (fun p : Int × List String => decide (p.1 = t)) := by
      funext p; by_cases hp : p.1 = tier <;> simp [hp, hne, Ne.symm hne]
    rw [hpf]
    cases hf2 : h.find? (fun p => decide (p.1 = t)) with
    | none => rfl
    | some q2 =>
      have hq2 : q2.1 = t := by simpa using List.find?_some hf2
      simp [hq2, hne]

theorem hitsModels_nil : HitsModels [] [] := by
  intro t
  constructor
  · intro _ iv hiv; simp at hiv
  · intro gs hgs; simp [hitsGet] at hgs

theorem hitsModels_step (h : List (Int × List String)) (done : List Ival) (iv : Ival)
    (hm : HitsModels h done) :
    HitsModels (hitsAdd h iv.data.2 iv.data.1) (done ++ [iv]) := by
  intro t
  by_cases ht : t = iv.data.2
  · subst ht
    constructor
    · intro hnone
      rw [hitsGet_hitsAdd_self] at hnone
      simp at hnone
    · intro gs hgs
      rw [hitsGet_hitsAdd_self] at hgs
      cases hh : hitsGet h iv.data.2 with
      | none =>
        rw [hh] at hgs
        simp only [Option.some.injEq] at hgs
        subst hgs
        refine ⟨by simp, by simp, fun g2 => ?_⟩
        simp only [List.mem_singleton]
        constructor
        · intro hg2
          exact ⟨iv, by simp, rfl, hg2.symm⟩
        · rintro ⟨iv2, hmem, ht2, hg2⟩
          rcases List.mem_append.mp hmem with h2 | h2
          · exact absurd ht2 ((hm iv.data.2).1 hh iv2 h2)
          · rw [List.mem_singleton] at h2
            subst h2
            exact hg2.symm
      | some gs0 =>
        rw [hh] at hgs
        simp only [Option.some.injEq] at hgs
        obtain ⟨hne0, hnd0, hmem0⟩ := (hm iv.data.2).2 gs0 hh
        by_cases hg : iv.data.1 ∈ gs0
        · rw [if_pos hg] at hgs
          subst hgs
          refine ⟨hne0, hnd0, fun g2 => ?_⟩
          rw [hmem0 g2]
          constructor
          · rintro ⟨iv2, h2, h3, h4⟩
            exact ⟨iv2, List.mem_append.mpr (Or.inl h2), h3, h4⟩
          · rintro ⟨iv2, h2, h3, h4⟩
            rcases List.mem_append.mp h2 with h2 | h2
            · exact ⟨iv2, h2, h3, h4⟩
            · rw [List.mem_singleton] at h2
              subst h2
              rw [← h4]
              exact (hmem0 iv2.data.1).mp hg
        · rw [if_neg hg] at hgs
          subst hgs
          refine ⟨by simp, ?_, fun g2 => ?_⟩
          · rw [List.nodup_append]
            exact ⟨hnd0, List.nodup_singleton _, by simpa using hg⟩
          · rw [List.mem_append, List.mem_singleton, hmem0 g2]
            constructor
            · rintro (⟨iv2, h2, h3, h4⟩ | h2)
              · exact ⟨iv2, List.mem_append.mpr (Or.inl h2), h3, h4⟩
              · exact ⟨iv, List.mem_append.mpr (Or.inr (List.mem_singleton.mpr rfl)), rfl,
                  h2.symm⟩
            · rintro ⟨iv2, h2, h3, h4⟩
              rcases List.mem_append.mp h2 with h2 | h2
              · exact Or.inl ⟨iv2, h2, h3, h4⟩
              · rw [List.mem_singleton] at h2
                subst h2
                exact Or.inr h4.symm
  · rw [hitsGet_hitsAdd_ne h iv.data.2 t iv.data.1 ht]
    constructor
    · intro hnone iv2 hmem
      rcases List.mem_append.mp hmem with h2 | h2
      · exact (hm t).1 hnone iv2 h2
      · rw [List.mem_singleton] at h2
        subst h2
        exact fun hc => ht hc.symm
    · intro gs hgs
      obtain ⟨ha, hb, hc⟩ := (hm t).2 gs hgs
      refine ⟨ha, hb, fun g2 => ?_⟩
      rw [hc g2]
      constructor
      · rintro ⟨iv2, h2, h3, h4⟩
        exact ⟨iv2, List.mem_append.mpr (Or.inl h2), h3, h4⟩
      · rintro ⟨iv2, h2, h3, h4⟩
        rcases List.mem_append.mp h2 with h2 | h2
        · exact ⟨iv2, h2, h3, h4⟩
        · rw [List.mem_singleton] at h2
          subst h2
          exact absurd h3 (fun hc => ht hc.symm)

theorem hitsModels_foldl :
    ∀ (l : List Ival) (h : List (Int × List String)) (done : List Ival),
      HitsModels h done →
      HitsModels (l.foldl (fun hits iv => hitsAdd hits iv.data.2 iv.data.1) h) (done ++ l)
  | [], h, done, hm => by simpa using hm
  | iv :: l, h, done, hm => by
    have hstep := hitsModels_step h done iv hm
    have hrec := hitsModels_foldl l (hitsAdd h iv.data.2 iv.data.1) (done ++ [iv]) hstep
    rw [List.foldl_cons]
    rw [List.append_cons]
    exact hrec

theorem buildHits_models (l : List Ival) : HitsModels (buildHits l) l := by
  have h := hitsModels_foldl l [] [] hitsModels_nil
  simpa [buildHits] using h

theorem hitsGet_buildHits_none_iff (l : List Ival) (t : Int) :
    hitsGet (buildHits l) t = none ↔ ∀ iv ∈ l, iv.data.2 ≠ t := by
  constructor
  · exact fun h => (buildHits_models l t).1 h
  · intro hall
    cases hh : hitsGet (buildHits l) t with
    | none => rfl
    | some gs =>
      obtain ⟨hne, _, hmem⟩ := (buildHits_models l t).2 gs hh
      obtain ⟨g, hg⟩ := List.exists_mem_of_ne_nil gs hne
      obtain ⟨iv, hiv, ht2, _⟩ := (hmem g).mp hg
      exact absurd ht2 (hall iv hiv)

theorem hitsGet_buildHits_some_sorted (l : List Ival) (t : Int) (gs : List String)
    (h : hitsGet (buildHits l) t = some gs) :
    sortStrings gs = sortStrings (specTierGenes l t) := by
  obtain ⟨_, hnd, hmem⟩ := (buildHits_models l t).2 gs h
  apply sortStrings_congr
  have hnd2 : (specTierGenes l t).Nodup := by
    simp only [specTierGenes]
    exact List.nodup_dedup _
  rw [List.perm_ext_iff_of_nodup hnd hnd2]
  intro g
  rw [hmem g]
  simp only [specTierGenes, List.mem_dedup, List.mem_map, List.mem_filter,
    decide_eq_true_eq]
  constructor
  · rintro ⟨iv, h1, h2, h3⟩
    exact ⟨iv, ⟨h1, h2⟩, h3⟩
  · rintro ⟨iv, ⟨h1, h2⟩, h3⟩
    exact ⟨iv, h1, h2, h3⟩

theorem print_variant_eq_specCells (tiers : List Int) (fn : List String) (row : VarRow)
    (inters : List Ival) :
    print_variant tiers fn row inters =
      fn.map (fun f => rowGet row f) ++ specCells inters tiers := by
  simp only [print_variant, specCells]
  congr 1
  induction tiers with
  | nil => rfl
  | cons t ts ih =>
    rw [List.flatMap_cons, List.flatMap_cons, ih]
    congr 1
    cases hh : hitsGet (buildHits inters) t with
    | none =>
      have hany : inters.any (fun iv => decide (iv.data.2 = t)) = false := by
        rw [List.any_eq_false]
        intro iv hiv
        simpa using (hitsGet_buildHits_none_iff inters t).mp hh iv hiv
      simp [hany]
    | some gs =>
      have hany : inters.any (fun iv => decide (iv.data.2 = t)) = true := by
        rw [List.any_eq_true]
        obtain ⟨hne, _, hmem⟩ := (buildHits_models inters t).2 gs hh
        obtain ⟨g, hg⟩ := List.exists_mem_of_ne_nil gs hne
        obtain ⟨iv, hiv, ht2, _⟩ := (hmem g).mp hg
        exact ⟨iv, hiv, by simp [ht2]⟩
      simp [hany, hitsGet_buildHits_some_sorted inters t gs hh]

/-! Characterization of the overlap queries. -/

theorem mem_treeOverlap {tree : List Ival} {qb qe : Int} {iv : Ival} :
    iv ∈ treeOverlap tree qb qe ↔
      qb < qe ∧ iv ∈ tree ∧ iv.ibegin < qe ∧ qb < iv.iend := by
  simp only [treeOverlap]
  split_ifs with h
  · simp only [List.not_mem_nil, false_iff]
    rintro ⟨h1, _⟩
    omega
  · simp only [List.mem_filter, decide_eq_true_eq]
    constructor
    · rintro ⟨h1, h2, h3⟩
      exact ⟨by omega, h1, h2, h3⟩
    · rintro ⟨_, h2, h3, h4⟩
      exact ⟨h2, h3, h4⟩

theorem mem_lookup {a : AnnIntervals} {c : String} {s e : Int} {iv : Ival} :
    iv ∈ lookup a c s e ↔
      s ≤ e ∧ ∃ t, chromsFind a c = some t ∧ iv ∈ t ∧ iv.ibegin ≤ e ∧ s < iv.iend := by
  simp only [lookup]
  cases hf : chromsFind a c with
  | none => simp
  | some t =>
    rw [mem_treeOverlap]
    constructor
    · rintro ⟨h1, h2, h3, h4⟩
      exact ⟨by omega, t, rfl, h2, by omega, h4⟩
    · rintro ⟨h1, t2, ht2, h2, h3, h4⟩
      injection ht2 with ht2
      subst ht2
      exact ⟨by omega, h2, by omega, h4⟩

/-! Lemmas about the construction of the index. -/

theorem chromsFind_annAdd_ok {a : AnnIntervals} {c : String} {s e : Int}
    {v : String × Int} {a2 : AnnIntervals} (h : annAdd a c s e v = Except.ok a2) :
    ∃ t, chromsFind a2 c = some t ∧ (⟨s, e, v⟩ : Ival) ∈ t := by
  by_cases hnull : e ≤ s
  · exfalso
    simp only [annAdd, treeAdd, if_pos hnull] at h
    cases h0 : chromsFind a c <;> rw [h0] at h <;> simp at h
  · cases hf : chromsFind a c with
    | none =>
      simp only [annAdd, treeAdd, if_neg hnull, hf] at h
      injection h with h
      subst h
      refine ⟨[⟨s, e, v⟩], ?_, by simp⟩
      simp only [chromsFind, List.find?_append]
      have hf2 : a.find? (fun p => decide (p.1 = c)) = none := by
        cases hfa : a.find? (fun p => decide (p.1 = c)) with
        | none => rfl
        | some q => rw [chromsFind, hfa] at hf; simp at hf
      rw [hf2]
      simp
    | some t =>
      simp only [annAdd, treeAdd, if_neg hnull, hf] at h
      injection h with h
      subst h
      obtain ⟨q, hq, hq2⟩ : ∃ q, a.find? (fun p => decide (p.1 = c)) = some q ∧ q.2 = t := by
        rw [chromsFind] at hf
        cases hfa : a.find? (fun p => decide (p.1 = c)) with
        | none => rw [hfa] at hf; simp at hf
        | some q => rw [hfa] at hf; simp at hf; exact ⟨q, rfl, hf⟩
      have hqc : q.1 = c := by simpa using List.find?_some hq
      refine ⟨t ++ [⟨s, e, v⟩], ?_, by simp⟩
      simp only [chromsFind]
      rw [List.find?_map]
      have hpf : ((fun p => decide (p.1 = c)) ∘
          (fun p : String × List Ival => if p.1 = c then (c, t ++ [⟨s, e, v⟩]) else p)) =
          (fun p : String × List Ival => decide (p.1 = c)) := by
        funext p; by_cases hp : p.1 = c <;> simp [hp]
      rw [hpf, hq]
      simp [hqc, hq2]

/-! Lemmas about the variant loop. -/

theorem annotateOne_ok {hw : Int} {st : List Int} {anns : AnnIntervals}
    {fn : List String} {row : VarRow} {p1 p2 : Int}
    (h1 : parseInt (rowGet row "pos1") = some p1)
    (h2 : parseInt (rowGet row "pos2") = some p2) :
    annotateOne hw st anns fn row = Except.ok (print_variant st fn row
      (rowIntersections hw anns (rowGet row "chr1") p1 (rowGet row "chr2") p2)) := by
  simp only [annotateOne, h1, h2]

theorem annotateOne_err (hw : Int) (st : List Int) (anns : AnnIntervals)
    (fn : List String) {row : VarRow}
    (h : parseInt (rowGet row "pos1") = none ∨ parseInt (rowGet row "pos2") = none) :
    ∃ m, annotateOne hw st anns fn row = Except.error m := by
  rcases h with h | h
  · refine ⟨"invalid literal for int with base 10: " ++ rowGet row "pos1", ?_⟩
    simp only [annotateOne, h]
  · cases h1 : parseInt (rowGet row "pos1") with
    | none =>
      refine ⟨"invalid literal for int with base 10: " ++ rowGet row "pos1", ?_⟩
      simp only [annotateOne, h1]
    | some p1 =>
      refine ⟨"invalid literal for int with base 10: " ++ rowGet row "pos2", ?_⟩
      simp only [annotateOne, h1, h]

theorem annotateRows_all_ok (hw : Int) (st : List Int) (anns : AnnIntervals)
    (fn : List String) :
    ∀ (rows : List VarRow),
      (∀ r ∈ rows, (parseInt (rowGet r "pos1")).isSome ∧ (parseInt (rowGet r "pos2")).isSome) →
      annotateRows hw st anns fn rows = (rows.map (okLine hw st anns fn), none)
  | [], _ => rfl
  | row :: rest, hall => by
    obtain ⟨p1, hp1⟩ := Option.isSome_iff_exists.mp (hall row (by simp)).1
    obtain ⟨p2, hp2⟩ := Option.isSome_iff_exists.mp (hall row (by simp)).2
    have hrec := annotateRows_all_ok hw st anns fn rest
      (fun r hr => hall r (List.mem_cons_of_mem _ hr))
    simp only [annotateRows, annotateOne_ok hp1 hp2, hrec, List.map_cons]
    simp [okLine, hp1, hp2]

theorem annotateRows_stop (hw : Int) (st : List Int) (anns : AnnIntervals)
    (fn : List String) (bad : VarRow) (rest : List VarRow)
    (hbad : parseInt (rowGet bad "pos1") = none ∨ parseInt (rowGet bad "pos2") = none) :
    ∀ (good : List VarRow),
      (∀ r ∈ good, (parseInt (rowGet r "pos1")).isSome ∧ (parseInt (rowGet r "pos2")).isSome) →
      ∃ m, annotateRows hw st anns fn (good ++ bad :: rest) =
        (good.map (okLine hw st anns fn), some m)
  | [], _ => by
    obtain ⟨m, hm⟩ := annotateOne_err hw st anns fn hbad
    exact ⟨m, by simp only [List.nil_append, annotateRows, hm, List.map_nil]⟩
  | row :: grest, hall => by
    obtain ⟨p1, hp1⟩ := Option.isSome_iff_exists.mp (hall row (by simp)).1
    obtain ⟨p2, hp2⟩ := Option.isSome_iff_exists.mp (hall row (by simp)).2
    obtain ⟨m, hm⟩ := annotateRows_stop hw st anns fn bad rest hbad grest
      (fun r hr => hall r (List.mem_cons_of_mem _ hr))
    refine ⟨m, ?_⟩
    simp only [List.cons_append, annotateRows, annotateOne_ok hp1 hp2, List.map_cons,
      List.append_eq]
    rw [hm]
    simp [okLine, hp1, hp2]

theorem readAnnotationsAux_ok_parses :
    ∀ (rows : List AnnRow) (pad : Int) (tiers : List Int) (ints : AnnIntervals)
      (res : List Int × AnnIntervals),
      readAnnotationsAux pad tiers ints rows = Except.ok res →
      ∀ row ∈ rows, (parseInt row.tier).isSome ∧ (parseInt row.start).isSome ∧
        (parseInt row.stop).isSome
  | [], _, _, _, _ => by
    intro _ row hrow
    simp at hrow
  | row :: rest, pad, tiers, ints, res => by
    intro h r hr
    rw [readAnnotationsAux] at h
    cases ht : parseInt row.tier with
    | none => simp [ht] at h
    | some tv =>
      simp only [ht] at h
      cases hs : parseInt row.start with
      | none => simp [hs] at h
      | some sv =>
        simp only [hs] at h
        cases he : parseInt row.stop with
        | none => simp [he] at h
        | some ev =>
          simp only [he] at h
          cases ha : annAdd ints row.chrom (sv - pad) (ev + pad) (row.gene, tv) with
          | error m => simp [ha] at h
          | ok ints2 =>
            simp only [ha] at h
            rcases List.mem_cons.mp hr with hr2 | hr2
            · subst hr2
              exact ⟨by simp [ht], by simp [hs], by simp [he]⟩
            · exact readAnnotationsAux_ok_parses rest pad _ _ res h r hr2

/-! Claim theorems. -/

/-- C1 counterexample: in the index built from the annotation row
(chr1, 10, 20, G, 1) with pad 0, the indexed interval ends exactly at
coordinate 20, yet the point query [20, 20] returns no hit — the claim that an
interval ending exactly at the query end always counts as overlapping fails at
the point query case. -/
theorem C1_counterexample :
    exIdx1 = [("chr1", [⟨10, 20, ("G", 1)⟩])] ∧
    lookup exIdx1 "chr1" 20 20 = [] := by
  constructor
  · decide
  · decide

/-- C1 amended: AnnIntervals.lookup slices to end + 1, so the query upper
bound is inclusive with respect to interval begins, but stored intervals are
half open, so an interval whose end coordinate equals the query end overlaps
exactly when the query start is strictly below the query end; in particular a
point query [x, x] against an interval ending exactly at x returns no hit. -/
theorem C1_inclusive_upper_bound (a : AnnIntervals) (c : String) (s e : Int)
    (iv : Ival) (tree : List Ival) (hf : chromsFind a c = some tree)
    (hm : iv ∈ tree) (he : iv.iend = e) :
    iv ∈ lookup a c s e ↔ (iv.ibegin ≤ e ∧ s < e) := by
  rw [mem_lookup]
  constructor
  · rintro ⟨h1, t2, ht2, h2, h3, h4⟩
    exact ⟨h3, by omega⟩
  · rintro ⟨h2, h3⟩
    exact ⟨by omega, tree, hf, hm, h2, by omega⟩

/-- C1 witness: the amended statement evaluated on the fixture index. -/
theorem C1_witness :
    (⟨10, 20, ("G", 1)⟩ : Ival) ∈ lookup exIdx1 "chr1" 12 20 ↔
      ((10 : Int) ≤ 20 ∧ (12 : Int) < 20) :=
  C1_inclusive_upper_bound exIdx1 "chr1" 12 20 ⟨10, 20, ("G", 1)⟩
    [⟨10, 20, ("G", 1)⟩] (by decide) (by decide) rfl

/-- C2: the header tier columns are generated from the tier set in its
iteration order, not from sorted(tiers): with iteration order [8, 1] (the
order a CPython set holding tiers 1 and 8 actually yields) the header lists
the tier8 pair before the tier1 pair, while the data cells follow the sorted
order [1, 8], so the tier1 flag value sits under the tier8 header column. -/
theorem C2_header_unsorted :
    annotate_variants 50 [8, 1] exIdx18 ["id"] [vRow1] =
      ([["id", "tier8", "tier8 genes", "tier1", "tier1 genes"],
        ["v1", "1", "G", "0", ""]], none) ∧
    sortInts [8, 1] = [1, 8] := by
  constructor
  · decide
  · decide

/-- C3 counterexample: with a tier 1 gene on chr1 at [120, 180] (pad 0), the
variant row with pos1 = 100, pos2 = 200 reports the gene, while the row with
the same breakends in the opposite order (pos1 = 200, pos2 = 100) reports
nothing — the reported hits are not independent of breakend order. -/
theorem C3_counterexample :
    annotate_variants 50 [1] exIdx3 exFields [vRowF, vRowR] =
      ([["id", "chr1", "pos1", "chr2", "pos2", "tier1", "tier1 genes"],
        ["va", "chr1", "100", "chr1", "200", "1", "G"],
        ["vb", "chr1", "200", "chr1", "100", "0", ""]], none) := by
  decide

/-- C3 amended: when pos1 <= pos2 the same chromosome query returns exactly
the indexed intervals intersecting the closed span [pos1, pos2]; when
pos1 > pos2 the slice is inverted and the query returns no hits — the code
does not normalize breakend order. -/
theorem C3_same_chrom_span (a : AnnIntervals) (c : String) (p1 p2 : Int)
    (iv : Ival) :
    (p1 ≤ p2 →
      (iv ∈ lookup a c p1 p2 ↔
        ∃ t, chromsFind a c = some t ∧ iv ∈ t ∧ iv.ibegin ≤ p2 ∧ p1 < iv.iend)) ∧
    (p2 < p1 → lookup a c p1 p2 = []) := by
  constructor
  · intro hle
    rw [mem_lookup]
    constructor
    · rintro ⟨_, h⟩
      exact h
    · intro h
      exact ⟨hle, h⟩
  · intro hlt
    simp only [lookup]
    cases chromsFind a c with
    | none => rfl
    | some t =>
      simp only [treeOverlap]
      rw [if_pos (show p2 + 1 ≤ p1 by omega)]

/-- C3 witness: the amended statement evaluated on the fixture index, for the
forward span [100, 200] and the inverted span [200, 100]. -/
theorem C3_witness :
    ((⟨120, 180, ("G", 1)⟩ : Ival) ∈ lookup exIdx3 "chr1" 100 200 ↔
      ∃ t, chromsFind exIdx3 "chr1" = some t ∧ (⟨120, 180, ("G", 1)⟩ : Ival) ∈ t ∧
        (⟨120, 180, ("G", 1)⟩ : Ival).ibegin ≤ 200 ∧
        (100 : Int) < (⟨120, 180, ("G", 1)⟩ : Ival).iend) ∧
    lookup exIdx3 "chr1" 200 100 = [] :=
  ⟨(C3_same_chrom_span exIdx3 "chr1" 100 200 ⟨120, 180, ("G", 1)⟩).1 (by decide),
   (C3_same_chrom_span exIdx3 "chr1" 200 100 ⟨120, 180, ("G", 1)⟩).2 (by decide)⟩

/-- C9: the index is read only under queries: any sequence of lookup method
calls returns the same results as pure lookups on the initial state and leaves
the chroms mapping — every chromosome, interval and payload — unchanged; a
lookup on a chromosome with no tree returns the empty set and does not create
a tree (the state is returned untouched). -/
theorem C9_lookup_readonly (a : AnnIntervals) (qs : List (String × Int × Int)) :
    (runLookups a qs).2 = a ∧
    (runLookups a qs).1 = qs.map (fun q => lookup a q.1 q.2.1 q.2.2) ∧
    (∀ c s e, chromsFind a c = none → lookupSt a c s e = ([], a)) := by
  have hst : ∀ c s e, lookupSt a c s e = (lookup a c s e, a) := by
    intro c s e
    simp only [lookupSt, lookup]
    cases chromsFind a c <;> rfl
  have key : ∀ qs2 : List (String × Int × Int), (runLookups a qs2).2 = a ∧
      (runLookups a qs2).1 = qs2.map (fun q => lookup a q.1 q.2.1 q.2.2) := by
    intro qs2
    induction qs2 with
    | nil => exact ⟨rfl, rfl⟩
    | cons q qs2 ih =>
      simp only [runLookups, hst, List.map_cons]
      exact ⟨ih.1, by rw [ih.2]⟩
  exact ⟨(key qs).1, (key qs).2, fun c s e h => by simp only [lookupSt, h]⟩

/-- C9 witness: a two query sequence on the fixture index, the second on a
chromosome with no tree. -/
theorem C9_witness :
    (runLookups exIdx1 [("chr1", 12, 30), ("chrX", 0, 5)]).2 = exIdx1 ∧
    (runLookups exIdx1 [("chr1", 12, 30), ("chrX", 0, 5)]).1 =
      [("chr1", 12, 30), ("chrX", 0, 5)].map
        (fun q => lookup exIdx1 q.1 q.2.1 q.2.2) ∧
    lookupSt exIdx1 "chrX" 0 5 = ([], exIdx1) :=
  ⟨(C9_lookup_readonly exIdx1 [("chr1", 12, 30), ("chrX", 0, 5)]).1,
   (C9_lookup_readonly exIdx1 [("chr1", 12, 30), ("chrX", 0, 5)]).2.1,
   (C9_lookup_readonly exIdx1 [("chr1", 12, 30), ("chrX", 0, 5)]).2.2 "chrX" 0 5
     (by decide)⟩

/-- C10: an annotation row with end = start indexed with pad 0 produces a null
padded interval, whose insertion raises and aborts the whole build (the later
well formed row is never indexed), even though the row satisfies end >= start
and pad >= 0; the same rows with pad 1 build fine, so the failure is exactly
the zero length padded interval. -/
theorem C10_null_interval_aborts :
    read_annotations 0 [⟨"chr1", "5", "5", "G", "1"⟩, exRow1] =
      Except.error "IntervalTree: Null Interval objects not allowed" ∧
    (read_annotations 1 [⟨"chr1", "5", "5", "G", "1"⟩, exRow1]).isOk = true := by
  constructor
  · rfl
  · rfl

/-- C4: for a cross chromosome variant row (chr1 differs from chr2) with
parsed positions, the loop body queries the index exactly twice, with spans
[max 0 (pos1 - window // 2), pos1 + window // 2 - 1] for breakend 1 and the
identical formula for breakend 2, and passes the union of the two result sets
to tier aggregation, so a hit from either breakend is among the aggregated
intersections; the same chromosome branch passes pos1 and pos2 through with no
clamp; and index insertion stores the given coordinates unclamped. -/
theorem C4_cross_chromosome_window (window : Int) (st : List Int)
    (anns : AnnIntervals) (fn : List String) (row : VarRow) (p1 p2 : Int)
    (h1 : parseInt (rowGet row "pos1") = some p1)
    (h2 : parseInt (rowGet row "pos2") = some p2)
    (hne : rowGet row "chr1" ≠ rowGet row "chr2") :
    annotateOne (Int.fdiv window 2) st anns fn row =
      Except.ok (print_variant st fn row
        (lookup anns (rowGet row "chr1") (max 0 (p1 - Int.fdiv window 2))
            (p1 + (Int.fdiv window 2 - 1)) ++
         lookup anns (rowGet row "chr2") (max 0 (p2 - Int.fdiv window 2))
            (p2 + (Int.fdiv window 2 - 1)))) ∧
    (∀ iv : Ival,
      iv ∈ lookup anns (rowGet row "chr1") (max 0 (p1 - Int.fdiv window 2))
          (p1 + (Int.fdiv window 2 - 1)) ∨
      iv ∈ lookup anns (rowGet row "chr2") (max 0 (p2 - Int.fdiv window 2))
          (p2 + (Int.fdiv window 2 - 1)) →
      iv ∈ rowIntersections (Int.fdiv window 2) anns (rowGet row "chr1") p1
        (rowGet row "chr2") p2) ∧
    (∀ (c : String) (q1 q2 : Int),
      rowIntersections (Int.fdiv window 2) anns c q1 c q2 = lookup anns c q1 q2) ∧
    (∀ (a : AnnIntervals) (c : String) (s e : Int) (v : String × Int)
      (a2 : AnnIntervals), annAdd a c s e v = Except.ok a2 →
      ∃ t, chromsFind a2 c = some t ∧ (⟨s, e, v⟩ : Ival) ∈ t) := by
  refine ⟨?_, ?_, ?_, ?_⟩
  · rw [annotateOne_ok h1 h2]
    simp only [rowIntersections, if_neg hne]
  · intro iv hiv
    simp only [rowIntersections, if_neg hne, List.mem_append]
    exact hiv
  · intro c q1 q2
    simp [rowIntersections]
  · intro a c s e v a2 h
    exact chromsFind_annAdd_ok h

/-- C4 witness: the first conjunct evaluated on a concrete cross chromosome
row with window 50, so the spans are [975, 1024] around 1000 and [0, 39]
around 15 (the latter clamped at 0). -/
theorem C4_witness :
    annotateOne (Int.fdiv 50 2) [1, 2] exIdxX exFields vRowX =
      Except.ok (print_variant [1, 2] exFields vRowX
        (lookup exIdxX "chr1" (max 0 (1000 - Int.fdiv 50 2))
            (1000 + (Int.fdiv 50 2 - 1)) ++
         lookup exIdxX "chr2" (max 0 (15 - Int.fdiv 50 2))
            (15 + (Int.fdiv 50 2 - 1)))) :=
  (C4_cross_chromosome_window 50 [1, 2] exIdxX exFields vRowX 1000 15
    (by decide) (by decide) (by decide)).1

/-- C5: an annotation row with parsed start S, end E, gene g, tier t, indexed
with pad P, stores exactly the interval from S - P to E + P — the padded start
S - P is kept even when negative, with no clamping at build time — provided
the padded interval is not null (the null case raises instead, see C10); the
query [S - P, E + P] on that chromosome returns that gene, and the query
[S - P - 1, S - P - 1] one base below the padded start returns nothing. -/
theorem C5_padding_invariant (pad S E t : Int) (c g : String) (row : AnnRow)
    (hc : row.chrom = c) (hs : parseInt row.start = some S)
    (he : parseInt row.stop = some E) (hg : row.gene = g)
    (ht : parseInt row.tier = some t) (hnn : S - pad < E + pad) :
    read_annotations pad [row] =
      Except.ok ([t], [(c, [⟨S - pad, E + pad, (g, t)⟩])]) ∧
    (⟨S - pad, E + pad, (g, t)⟩ : Ival) ∈
      lookup [(c, [⟨S - pad, E + pad, (g, t)⟩])] c (S - pad) (E + pad) ∧
    lookup [(c, [⟨S - pad, E + pad, (g, t)⟩])] c (S - pad - 1) (S - pad - 1) = [] := by
  refine ⟨?_, ?_, ?_⟩
  · rw [read_annotations, readAnnotationsAux]
    simp only [ht, hs, he, hc, hg]
    rw [annAdd]
    simp only [chromsFind, List.find?_nil, Option.map_none, treeAdd,
      if_neg (show ¬(E + pad ≤ S - pad) by omega)]
    simp [readAnnotationsAux]
  · rw [mem_lookup]
    refine ⟨by omega, [⟨S - pad, E + pad, (g, t)⟩], ?_, by simp, ?_, ?_⟩
    · simp [chromsFind]
    · show S - pad ≤ E + pad
      omega
    · show S - pad < E + pad
      exact hnn
  · have hch : chromsFind [(c, [⟨S - pad, E + pad, (g, t)⟩])] c =
        some [⟨S - pad, E + pad, (g, t)⟩] := by simp [chromsFind]
    simp only [lookup, hch, treeOverlap]
    rw [if_neg (show ¬(S - pad - 1 + 1 ≤ S - pad - 1) by omega)]
    rw [List.filter_cons]
    simp only [show ¬((⟨S - pad, E + pad, (g, t)⟩ : Ival).ibegin < S - pad - 1 + 1 ∧
      S - pad - 1 < (⟨S - pad, E + pad, (g, t)⟩ : Ival).iend) by
        simp only [Ival.mk.injEq]
        show ¬(S - pad < S - pad - 1 + 1 ∧ S - pad - 1 < E + pad)
        omega]
    simp

/-- C5 witness: start 100, end 200, pad 2000 — the padded start 100 - 2000 is
negative and stored unclamped. -/
theorem C5_witness :
    read_annotations 2000 [⟨"chr7", "100", "200", "G", "2"⟩] =
      Except.ok ([2], [("chr7", [⟨100 - 2000, 200 + 2000, ("G", 2)⟩])]) ∧
    (⟨100 - 2000, 200 + 2000, ("G", 2)⟩ : Ival) ∈
      lookup [("chr7", [⟨100 - 2000, 200 + 2000, ("G", 2)⟩])] "chr7"
        (100 - 2000) (200 + 2000) ∧
    lookup [("chr7", [⟨100 - 2000, 200 + 2000, ("G", 2)⟩])] "chr7"
      (100 - 2000 - 1) (100 - 2000 - 1) = [] :=
  C5_padding_invariant 2000 100 200 2 "chr7" "G" ⟨"chr7", "100", "200", "G", "2"⟩
    rfl (by decide) (by decide) rfl (by decide) (by decide)

/-- C6: when every variant row parses, the output is the header followed by
exactly one line per input row in input order; each line is the row's original
field values in original column order followed, for each tier of the
ascending sorted global tier list, by flag 1 together with the alphabetically
sorted, semicolon joined gene list of that tier when it has a hit among the
row's intersections, else flag 0 together with the empty string; and the tier
list used for those cells is sorted ascending. -/
theorem C6_output_rows (window : Int) (tiers : List Int) (anns : AnnIntervals)
    (fn : List String) (rows : List VarRow)
    (hall : ∀ r ∈ rows, (parseInt (rowGet r "pos1")).isSome ∧
      (parseInt (rowGet r "pos2")).isSome) :
    annotate_variants window tiers anns fn rows =
      ((fn ++ tiers.flatMap (fun t =>
          ["tier" ++ toString t, "tier" ++ toString t ++ " genes"])) ::
        rows.map (fun r => fn.map (fun f => rowGet r f) ++
          specCells (rowIntersections (Int.fdiv window 2) anns (rowGet r "chr1")
            ((parseInt (rowGet r "pos1")).getD 0) (rowGet r "chr2")
            ((parseInt (rowGet r "pos2")).getD 0)) (sortInts tiers)), none) ∧
    List.Sorted (fun a b : Int => a ≤ b) (sortInts tiers) := by
  constructor
  · simp only [annotate_variants]
    rw [annotateRows_all_ok (Int.fdiv window 2) (sortInts tiers) anns fn rows hall]
    have hfun : okLine (Int.fdiv window 2) (sortInts tiers) anns fn =
        fun r => fn.map (fun f => rowGet r f) ++
          specCells (rowIntersections (Int.fdiv window 2) anns (rowGet r "chr1")
            ((parseInt (rowGet r "pos1")).getD 0) (rowGet r "chr2")
            ((parseInt (rowGet r "pos2")).getD 0)) (sortInts tiers) := by
      funext r
      rw [okLine, print_variant_eq_specCells]
    rw [hfun]
  · exact sortInts_sorted tiers

/-- C6 witness: the output shape evaluated on the two gene fixture index and
one variant row. -/
theorem C6_witness :
    annotate_variants 50 [1] exIdx2 exFields [vRow1] =
      ((exFields ++ [1].flatMap (fun t =>
          ["tier" ++ toString t, "tier" ++ toString t ++ " genes"])) ::
        [vRow1].map (fun r => exFields.map (fun f => rowGet r f) ++
          specCells (rowIntersections (Int.fdiv 50 2) exIdx2 (rowGet r "chr1")
            ((parseInt (rowGet r "pos1")).getD 0) (rowGet r "chr2")
            ((parseInt (rowGet r "pos2")).getD 0)) (sortInts [1])), none) :=
  (C6_output_rows 50 [1] exIdx2 exFields [vRow1] (by decide)).1

/-- C7 counterexample: with a well formed first variant row and a malformed
second one, the run aborts but has already printed the header and the first
annotated row — so an output row is produced despite the abort, contradicting
the claim that no output rows are produced. -/
theorem C7_counterexample :
    svannotate 0 50 [exRow1] exFields [vRow1, vRowBad] =
      ([["id", "chr1", "pos1", "chr2", "pos2", "tier1", "tier1 genes"],
        ["v1", "chr1", "12", "chr1", "30", "1", "G"]],
       some "invalid literal for int with base 10: oops") := by
  decide

/-- C7 amended: a malformed integer aborts the run at the offending row with
no row level skip and continue: a failing annotation build reports the error
with no output at all, an accepted annotation input has every numeric field
parsed, and a malformed variant row stops the loop at that row — the header
and the preceding rows have already been printed, so the variant side abort
can leave partial (truncated) output. -/
theorem C7_fail_fast (pad window : Int) (annRows : List AnnRow)
    (fn : List String) (varRows : List VarRow) (m : String) :
    (read_annotations pad annRows = Except.error m →
      svannotate pad window annRows fn varRows = ([], some m)) ∧
    (∀ res, read_annotations pad annRows = Except.ok res →
      ∀ row ∈ annRows, (parseInt row.tier).isSome ∧ (parseInt row.start).isSome ∧
        (parseInt row.stop).isSome) ∧
    (∀ (tiers : List Int) (anns : AnnIntervals) (good : List VarRow)
      (bad : VarRow) (rest : List VarRow),
      read_annotations pad annRows = Except.ok (tiers, anns) →
      (∀ r ∈ good, (parseInt (rowGet r "pos1")).isSome ∧
        (parseInt (rowGet r "pos2")).isSome) →
      (parseInt (rowGet bad "pos1") = none ∨ parseInt (rowGet bad "pos2") = none) →
      ∃ m2, svannotate pad window annRows fn (good ++ bad :: rest) =
        ((fn ++ tiers.flatMap (fun t =>
            ["tier" ++ toString t, "tier" ++ toString t ++ " genes"])) ::
          good.map (okLine (Int.fdiv window 2) (sortInts tiers) anns fn), some m2)) := by
  refine ⟨?_, ?_, ?_⟩
  · intro h
    simp only [svannotate, h]
  · intro res h
    exact readAnnotationsAux_ok_parses annRows pad [] [] res h
  · intro tiers anns good bad rest hok hgood hbad
    obtain ⟨m2, hm2⟩ := annotateRows_stop (Int.fdiv window 2) (sortInts tiers)
      anns fn bad rest hbad good hgood
    refine ⟨m2, ?_⟩
    simp only [svannotate, hok, annotate_variants]
    rw [hm2]

/-- C7 witness: the amended statement evaluated with one good variant row
before the malformed one. -/
theorem C7_witness :
    ∃ m2, svannotate 0 50 [exRow1] exFields ([vRow1] ++ vRowBad :: []) =
      ((exFields ++ [1].flatMap (fun t =>
          ["tier" ++ toString t, "tier" ++ toString t ++ " genes"])) ::
        [vRow1].map (okLine (Int.fdiv 50 2) (sortInts [1]) exIdx1 exFields),
       some m2) :=
  (C7_fail_fast 0 50 [exRow1] exFields [] "x").2.2 [1] exIdx1 [vRow1] vRowBad []
    (by rfl) (by decide) (Or.inl (by decide))

/-- C8 counterexample: a run with padding -1 is not rejected: the index is
built with the negative padding, the variants are annotated, and normal
output is produced with no error — there is no InvalidConfiguration check. -/
theorem C8_counterexample :
    svannotate (-1) 50 [exRow1] exFields [vRow1] =
      ([["id", "chr1", "pos1", "chr2", "pos2", "tier1", "tier1 genes"],
        ["v1", "chr1", "12", "chr1", "30", "1", "G"]], none) := by
  decide

/-- C8 amended: no configuration validation exists: pad and window may be any
integers (argparse type=int performs no sign check and main adds none), and
whenever the index build succeeds the run proceeds to annotate the variants
and prints at least the header line — negative pad and window included. -/
theorem C8_no_validation (pad window : Int) (annRows : List AnnRow)
    (fn : List String) (varRows : List VarRow) (tiers : List Int)
    (anns : AnnIntervals)
    (hok : read_annotations pad annRows = Except.ok (tiers, anns)) :
    svannotate pad window annRows fn varRows =
      annotate_variants window tiers anns fn varRows ∧
    (svannotate pad window annRows fn varRows).1 ≠ [] := by
  have h1 : svannotate pad window annRows fn varRows =
      annotate_variants window tiers anns fn varRows := by
    simp only [svannotate, hok]
  refine ⟨h1, ?_⟩
  rw [h1]
  simp [annotate_variants]

/-- C8 witness: the amended statement evaluated at pad -1 and window -7. -/
theorem C8_witness :
    svannotate (-1) (-7) [exRow1] exFields [vRow1] =
      annotate_variants (-7) [1] [("chr1", [⟨11, 19, ("G", 1)⟩])] exFields [vRow1] ∧
    (svannotate (-1) (-7) [exRow1] exFields [vRow1]).1 ≠ [] :=
  C8_no_validation (-1) (-7) [exRow1] exFields [vRow1] [1]
    [("chr1", [⟨11, 19, ("G", 1)⟩])] (by rfl)
